import Mathlib

/-!
Shallow embedding of `andifathulms/scrape-amazon-best-sellers`
(`src/utils.py`, `src/db.py`, `src/scrape.py`) and proofs about it.

Strings are modelled by Lean `String`; the character-level helpers below
reimplement the Python string operations (`str.strip`, `needle in hay`,
`str.startswith`) executably over `List Char` so that every definition
evaluates by kernel reduction.
-/

/-- Python `str.strip()`: remove leading and trailing whitespace. -/
def pyStrip (s : String) : String :=
  ⟨(((s.data.dropWhile Char.isWhitespace).reverse.dropWhile Char.isWhitespace).reverse)⟩

/-- Substring test on character lists: does `needle` occur inside `hay`?
Models Python `needle in hay` for strings. -/
def listContainsSub (needle : List Char) : List Char → Bool
  | [] => needle.isEmpty
  | c :: cs => needle.isPrefixOf (c :: cs) || listContainsSub needle cs

/-- Python `needle in hay` for strings. -/
def hasSub (needle hay : String) : Bool :=
  listContainsSub needle.data hay.data

/-- Python `'stars' in text`. -/
def hasStars (text : String) : Bool := hasSub "stars" text

/-- Python `'$' in text`. -/
def hasDollar (text : String) : Bool := hasSub "$" text

/-- Python `s.startswith(pre)`. -/
def pyStartswith (s pre : String) : Bool :=
  pre.data.isPrefixOf s.data

/-- One scraped fragment, as returned by the extractor inside a
`results` array: the fields `text` and `html` of `src/scrape.py`'s result
objects. -/
structure Frag where
  text : String
  html : String
deriving DecidableEq, Repr

/-- Classification of one (already stripped) text fragment, following the
`if` / `elif` / `elif` chain of `process_products` in `src/utils.py`
(lines 24-40): title when non-empty and containing neither `stars` nor `$`,
else rating when containing `stars`, else price when containing `$`,
else nothing happens (skip). -/
inductive FragClass where
  | title
  | rating
  | price
  | skip
deriving DecidableEq, Repr

/-- The classification decision of `process_products` (`src/utils.py`),
applied to the stripped text of a fragment. -/
def classify (text : String) : FragClass :=
  if !text.isEmpty && !hasStars text && !hasDollar text then .title
  else if hasStars text then .rating
  else if hasDollar text then .price
  else .skip

/-- A product record as saved by `save_product_to_db`
(`title`, `rating`, `price`, `category_id`); `none` models Python `None`. -/
structure ProdRow where
  title : String
  rating : Option String
  price : Option String
  category_id : Nat
deriving DecidableEq, Repr

/-- The loop of `process_products` (`src/utils.py` lines 16-44), with the
mutable locals `title`, `rating`, `price` made explicit and every
`save_product_to_db` call emitted into the returned list, in call order. -/
def processAux (categoryId : Nat) (tit rat pri : Option String) :
    List Frag → List ProdRow
  | [] =>
    match tit with
    | some t => [⟨t, rat, pri, categoryId⟩]
    | none => []
  | r :: rs =>
    let text := pyStrip r.text
    match classify text with
    | .title =>
      (match tit with
       | some t => [⟨t, rat, pri, categoryId⟩]
       | none => []) ++ processAux categoryId (some text) none none rs
    | .rating => processAux categoryId tit (some text) pri rs
    | .price => processAux categoryId tit rat (some text) rs
    | .skip => processAux categoryId tit rat pri rs

/-- `process_products(results, category_id)` from `src/utils.py`:
the list of product rows it saves, in order. -/
def process_products (results : List Frag) (categoryId : Nat) : List ProdRow :=
  processAux categoryId none none none results

/-- Attempted match of the regex `href="([^"]+)"` anchored at the start of
`cs`: the literal `href="`, then a maximal non-empty run of non-quote
characters, then a closing quote. -/
def matchHrefAt (cs : List Char) : Option String :=
  if "href=\"".data.isPrefixOf cs then
    let rest := cs.drop 6
    let cap := rest.takeWhile (fun c => c ≠ '"')
    if cap.length ≥ 1 && cap.length < rest.length then some ⟨cap⟩ else none
  else none

/-- `re.search(r'href="([^"]+)"', s)`: the leftmost position where the
pattern matches, scanning left to right. -/
def searchHref : List Char → Option String
  | [] => none
  | c :: cs =>
    match matchHrefAt (c :: cs) with
    | some s => some s
    | none => searchHref cs

/-- `extract_url_from_anchor(html_string)` from `src/utils.py`.
`BASE_URL` comes from the repository's `constants.py` (not part of the
sources here), so it is passed explicitly as a parameter. -/
def extract_url_from_anchor (BASE_URL : String) (html_string : String) :
    Option String :=
  match searchHref html_string.data with
  | some href_value =>
    some (if pyStartswith href_value "http" then href_value
          else BASE_URL ++ href_value)
  | none => none

/-! ## Catalog store (`src/db.py`)

The `categories` table (`id PK AUTOINCREMENT, category_name, url UNIQUE,
parent_id`) is modelled as a list of rows plus the next autoincrement id
(sqlite autoincrement starts at 1). -/

/-- One row of the `categories` table. -/
structure CatRow where
  id : Nat
  category_name : String
  url : String
  parent_id : Option Nat
deriving DecidableEq, Repr

/-- The `categories` table together with its autoincrement counter. -/
structure CatDB where
  rows : List CatRow
  nextId : Nat
deriving DecidableEq, Repr

/-- The fresh `categories` table created by `setup_categories_table`. -/
def emptyCatDB : CatDB := ⟨[], 1⟩

/-- The sqlite `INSERT INTO categories ...` statement under the
`url UNIQUE` constraint: `none` models the raised `IntegrityError`. -/
def categoriesInsert (db : CatDB) (name url : String) (parent : Option Nat) :
    Option CatDB :=
  if db.rows.any (fun r => r.url = url) then none
  else some ⟨db.rows ++ [⟨db.nextId, name, url, parent⟩], db.nextId + 1⟩

/-- `save_category_to_db(conn, category_name, url, parent_id)` from
`src/db.py` (lines 208-221): run the insert, catch the `IntegrityError`
raised on a duplicate `url` and return `None` then, else return
`cursor.lastrowid` (the id of the new row). -/
def save_category_to_db (db : CatDB) (category_name url : String)
    (parent_id : Option Nat) : Option Nat × CatDB :=
  match categoriesInsert db category_name url parent_id with
  | some db' => (some db.nextId, db')
  | none => (none, db)

/-- `get_category_by_id(category_id)` from `src/db.py`:
`SELECT category_name, url FROM categories WHERE id = ?` with `fetchone`. -/
def get_category_by_id (db : CatDB) (category_id : Nat) :
    Option (String × String) :=
  (db.rows.find? (fun r => r.id = category_id)).map
    (fun r => (r.category_name, r.url))

/-- `check_products_exist_by_category(category_id)` from `src/db.py`:
`SELECT COUNT(*) FROM products WHERE category_id = ?` compared with 0.
The `products` table is modelled as a list of `ProdRow`. -/
def check_products_exist_by_category (prods : List ProdRow)
    (category_id : Nat) : Bool :=
  prods.any (fun p => p.category_id = category_id)

/-- `delete_products_by_category(category_id)` from `src/db.py`:
`DELETE FROM products WHERE category_id = ?`. -/
def delete_products_by_category (prods : List ProdRow) (category_id : Nat) :
    List ProdRow :=
  prods.filter (fun p => ¬ p.category_id = category_id)

/-! ## Fetch with retry (`src/scrape.py`, `fetch_page`) -/

/-- Outcome of one `requests.post` attempt: a 200 response whose JSON body
is abstracted as a `Nat` tag, or a failure (non-success HTTP status turned
into an exception by `raise_for_status`, or a transport error). -/
inductive Attempt where
  | ok (body : Nat)
  | exc
deriving DecidableEq, Repr

/-- The `selectors` argument of `fetch_page`, keeping only what the
`isinstance(selectors, list)` check observes. -/
inductive SelArg where
  | list (selectors : List String)
  | notAList
deriving DecidableEq, Repr

/-- What a call to `fetch_page` produces. -/
inductive FetchResult where
  | json (body : Nat)
  | valueError (msg : String)
  | fetchFail (msg : String)
  | noReturn
deriving DecidableEq, Repr

/-- Observable side effects of a `fetch_page` call: how many HTTP requests
were issued and the `time.sleep` delays performed, in order. -/
structure FetchTrace where
  requests : Nat
  delays : List Nat
deriving DecidableEq, Repr

/-- The `while attempt < max_retries` loop of `fetch_page`
(`src/scrape.py` lines 37-53), with the `attempt`-th request's outcome
given by `outcomes attempt`: on 200 return the JSON body; on an exception
increment `attempt`, sleep 2 and retry while attempts remain, else raise
`Exception(f"Failed to fetch page after {max_retries} attempts")`.
Falling out of the loop without returning yields Python `None`
(`noReturn`). The structural argument `remaining` stands for
`max_retries - attempt`: callers keep that invariant, under which
`remaining = 0` is exactly the loop condition `attempt < max_retries`
failing. -/
def fetchLoop (outcomes : Nat → Attempt) (max_retries : Nat) :
    (remaining attempt : Nat) → FetchResult × FetchTrace
  | 0, _ => (.noReturn, ⟨0, []⟩)
  | remaining + 1, attempt =>
    match outcomes attempt with
    | .ok body => (.json body, ⟨1, []⟩)
    | .exc =>
      if attempt + 1 < max_retries then
        let r := fetchLoop outcomes max_retries remaining (attempt + 1)
        (r.1, ⟨r.2.requests + 1, 2 :: r.2.delays⟩)
      else
        (.fetchFail ("Failed to fetch page after " ++ toString max_retries
          ++ " attempts"), ⟨1, []⟩)

/-- `fetch_page(url, selectors, max_retries, render_js)` from
`src/scrape.py`: validate that `selectors` is a list (else raise
`ValueError` before any request), then run the retry loop starting at
`attempt = 0`. -/
def fetch_page (selectors : SelArg) (outcomes : Nat → Attempt)
    (max_retries : Nat) : FetchResult × FetchTrace :=
  match selectors with
  | .notAList => (.valueError "Selectors must be provided as a list.", ⟨0, []⟩)
  | .list _ => fetchLoop outcomes max_retries max_retries 0

/-! ## Category tree crawler (`src/scrape.py`, `scrape_category`)

The extractor response shape `{data: [{results: [...]}, ...]}` is modelled
field by field, with `none` standing for an absent key, so that the
`'data' not in response` check and the unchecked `['results']` access can
both be expressed. The network is a pure map from URL to response, and a
crawl state records the store plus the list of fetched URLs. -/

/-- One entry of the extractor's `data` array; `results = none` models a
missing `results` key. -/
structure RawItem where
  results : Option (List Frag)
deriving DecidableEq, Repr

/-- An extractor response; `data = none` models a missing `data` key. -/
structure RawResp where
  data : Option (List RawItem)
deriving DecidableEq, Repr

/-- One per-depth progress dict `{"current": ..., "total": ...}`. -/
structure Progress where
  current : Nat
  total : Nat
deriving DecidableEq, Repr

/-- State threaded through a crawl: the categories store and the log of
URLs fetched (in order). -/
structure CrawlState where
  db : CatDB
  fetched : List String
deriving DecidableEq, Repr

/-- The three progress dicts as passed around by `scrape_category`;
`none` models the Python default `None`. -/
abbrev ProgVec := Option Progress × Option Progress × Option Progress

/-- Add `n` to the `total` counter of the dict for `depth` (the
`depthN_progress["total"] += len(results)` block of `scrape_category`). -/
def bumpTotal (depth n : Nat) (q : Progress × Progress × Progress) :
    Progress × Progress × Progress :=
  if depth = 1 then (⟨q.1.current, q.1.total + n⟩, q.2.1, q.2.2)
  else if depth = 2 then (q.1, ⟨q.2.1.current, q.2.1.total + n⟩, q.2.2)
  else if depth = 3 then (q.1, q.2.1, ⟨q.2.2.current, q.2.2.total + n⟩)
  else q

/-- Add 1 to the `current` counter of the dict for `depth` (the
`depthN_progress["current"] += 1` block of `scrape_category`). -/
def bumpCurrent (depth : Nat) (q : Progress × Progress × Progress) :
    Progress × Progress × Progress :=
  if depth = 1 then (⟨q.1.current + 1, q.1.total⟩, q.2.1, q.2.2)
  else if depth = 2 then (q.1, ⟨q.2.1.current + 1, q.2.1.total⟩, q.2.2)
  else if depth = 3 then (q.1, q.2.1, ⟨q.2.2.current + 1, q.2.2.total⟩)
  else q

/-- The body of `scrape_category(url, depth, conn, parent_id,
depth1_progress, depth2_progress, depth3_progress)` from `src/scrape.py`
(lines 55-133), with the `for result in results` loop written as a fold
whose accumulator carries the three (initialized) progress dicts and the
crawl state, and aborts on an uncaught exception. `fuel` is a termination
device only: `scrape_category` below supplies `5 - depth`, recursive calls
keep the invariant `fuel = 5 - depth`, and the fuel-exhausted branch
coincides with the `depth > 3` guard (both return the arguments
unchanged), so no behavior hides in it. An `Except.error` models an
uncaught Python `KeyError` on `response['data'][0]['results']`.
Each loop step: resolve the fragment's anchor URL (skip the fragment when
none resolves), bump the depth's `current` counter, save the category, and
recurse one level deeper only when the save returned a fresh id
(`if current_category_id:` in the source). -/
def crawlAux (pages : String → RawResp) (base : String) :
    Nat → String → Nat → Option Nat → ProgVec → CrawlState →
    Except String (ProgVec × CrawlState)
  | 0, _, _, _, p, st => .ok (p, st)
  | fuel + 1, url, depth, parent_id, p, st =>
    if depth > 3 then .ok (p, st)
    else
      let st1 : CrawlState := ⟨st.db, st.fetched ++ [url]⟩
      match (pages url).data with
      | none => .ok (p, st1)
      | some [] => .ok (p, st1)
      | some (item :: _) =>
        match item.results with
        | none => .error "KeyError: results"
        | some results =>
          let q0 := (p.1.getD ⟨0, 0⟩, p.2.1.getD ⟨0, 0⟩, p.2.2.getD ⟨0, 0⟩)
          let q1 := bumpTotal depth results.length q0
          match results.foldl (fun
              (acc : Except String ((Progress × Progress × Progress) ×
                CrawlState)) r =>
            match acc with
            | .error e => .error e
            | .ok (q, stA) =>
              match extract_url_from_anchor base r.html with
              | none => .ok (q, stA)
              | some category_url =>
                let q' := bumpCurrent depth q
                let saved := save_category_to_db stA.db r.text category_url
                  parent_id
                let st' : CrawlState := ⟨saved.2, stA.fetched⟩
                match saved.1 with
                | some current_category_id =>
                  match crawlAux pages base fuel category_url (depth + 1)
                      (some current_category_id)
                      (some q'.1, some q'.2.1, some q'.2.2) st' with
                  | .ok (p'', st'') =>
                    .ok ((p''.1.getD q'.1, p''.2.1.getD q'.2.1,
                      p''.2.2.getD q'.2.2), st'')
                  | .error e => .error e
                | none => .ok (q', st')) (.ok (q1, st1)) with
          | .ok (q2, st2) => .ok ((some q2.1, some q2.2.1, some q2.2.2), st2)
          | .error e => .error e

/-- One iteration of the `for result in results` loop of
`scrape_category`, at recursion budget `fuel` for the child call; the
fold in `crawlAux (fuel + 1)` is literally `List.foldl` of this step
(see `crawlAux_succ`). -/
def crawlStep (pages : String → RawResp) (base : String) (fuel : Nat)
    (depth : Nat) (parent_id : Option Nat)
    (acc : Except String ((Progress × Progress × Progress) × CrawlState))
    (r : Frag) :
    Except String ((Progress × Progress × Progress) × CrawlState) :=
  match acc with
  | .error e => .error e
  | .ok (q, stA) =>
    match extract_url_from_anchor base r.html with
    | none => .ok (q, stA)
    | some category_url =>
      let q' := bumpCurrent depth q
      let saved := save_category_to_db stA.db r.text category_url parent_id
      let st' : CrawlState := ⟨saved.2, stA.fetched⟩
      match saved.1 with
      | some current_category_id =>
        match crawlAux pages base fuel category_url (depth + 1)
            (some current_category_id)
            (some q'.1, some q'.2.1, some q'.2.2) st' with
        | .ok (p'', st'') =>
          .ok ((p''.1.getD q'.1, p''.2.1.getD q'.2.1,
            p''.2.2.getD q'.2.2), st'')
        | .error e => .error e
      | none => .ok (q', st')

/-- `scrape_category` from `src/scrape.py`, entered at an arbitrary depth.
The fuel `5 - depth` covers the levels `depth, depth+1, ..., 4` the
recursion can visit before the `depth > 3` guard stops it. -/
def scrape_category (pages : String → RawResp) (base : String)
    (url : String) (depth : Nat) (parent_id : Option Nat)
    (p : ProgVec) (st : CrawlState) :
    Except String (ProgVec × CrawlState) :=
  crawlAux pages base (5 - depth) url depth parent_id p st

/-- `fetch_products_by_category(category_id)` from `src/scrape.py`
(lines 155-191). The interactive `input(...)` confirmation is modelled by
the boolean `confirm`; the network by `pages`; products are returned as the
updated `products` table. An `Except.error` models the uncaught `KeyError`
on `data[0]['results']`. -/
def fetch_products_by_category (catDb : CatDB) (prods : List ProdRow)
    (pages : String → RawResp) (confirm : Bool) (category_id : Nat) :
    Except String (List ProdRow) :=
  if check_products_exist_by_category prods category_id && !confirm then
    .ok prods
  else
    let prods1 :=
      if check_products_exist_by_category prods category_id then
        delete_products_by_category prods category_id
      else prods
    match get_category_by_id catDb category_id with
    | none => .ok prods1
    | some (_, url) =>
      let resp := pages url
      match resp.data with
      | none => .ok prods1
      | some [] => .ok prods1
      | some (item :: _) =>
        match item.results with
        | none => .error "KeyError: results"
        | some results => .ok (prods1 ++ process_products results category_id)

/-! ## Specification-side models and ordering predicates -/

/-- The class `process_products` assigns to a fragment (classification of
its stripped text). -/
def fragClass (r : Frag) : FragClass := classify (pyStrip r.text)

/-- Is the fragment title-classified? -/
def isTitleFrag (r : Frag) : Bool := decide (fragClass r = .title)

/-- The stripped text of a title-classified fragment, `none` otherwise. -/
def fragTitle (r : Frag) : Option String :=
  if fragClass r = .title then some (pyStrip r.text) else none

/-- Last-wins accumulation of the stripped text of fragments of class
`cls` (how the loop's `rating` / `price` locals evolve within one
record's span). -/
def updTag (cls : FragClass) (acc : Option String) (r : Frag) :
    Option String :=
  if fragClass r = cls then some (pyStrip r.text) else acc

/-- Modelled from the spec's output guarantee for `segment()`
(spec §4.2 / §8), as a refinement model to compare with
`process_products`: fragments before the first title-classified fragment
produce nothing; each title-classified fragment starts one record, in
input order, carrying the rating and price fragments that appeared
between that title and the next title (or the end of input) — `none` when
no such fragment appeared, the last one when several did. -/
def segSpec (categoryId : Nat) : List Frag → List ProdRow
  | [] => []
  | r :: rs =>
    if fragClass r = .title then
      ⟨pyStrip r.text,
       (rs.takeWhile (fun x => !isTitleFrag x)).foldl (updTag .rating) none,
       (rs.takeWhile (fun x => !isTitleFrag x)).foldl (updTag .price) none,
       categoryId⟩ ::
        segSpec categoryId (rs.dropWhile (fun x => !isTitleFrag x))
    else segSpec categoryId rs
termination_by rs => rs.length
decreasing_by
  all_goals simp only [List.length_cons]
  · exact Nat.lt_succ_of_le ((List.dropWhile_sublist _).length_le)
  · exact Nat.lt_succ_self _

/-- No position strictly inside `pre` starts an occurrence of the literal
`href="` in `pre ++ rest` (the scan of `searchHref` finds nothing while
inside `pre`). -/
def scanNoMatch : List Char → List Char → Bool
  | [], _ => true
  | c :: cs, rest =>
    !("href=\"".data.isPrefixOf ((c :: cs) ++ rest)) && scanNoMatch cs rest

/-- Pointwise order on one progress dict. -/
def progLe (p q : Progress) : Prop :=
  p.current ≤ q.current ∧ p.total ≤ q.total

/-- Order on optional progress dicts: an uninitialized (`none`) input is
below everything; an initialized one must stay initialized and grow. -/
def progOptLe : Option Progress → Option Progress → Prop
  | none, _ => True
  | some _, none => False
  | some p, some q => progLe p q

/-- Pointwise order on the three concrete progress dicts. -/
def tripleLe (a b : Progress × Progress × Progress) : Prop :=
  progLe a.1 b.1 ∧ progLe a.2.1 b.2.1 ∧ progLe a.2.2 b.2.2

/-- Pointwise order on the three optional progress dicts. -/
def vecLe (a b : ProgVec) : Prop :=
  progOptLe a.1 b.1 ∧ progOptLe a.2.1 b.2.1 ∧ progOptLe a.2.2 b.2.2

/-- A crawl result never decreases the progress counters it was given
(vacuous when the crawl aborts with an exception). -/
def crawlMono (p : ProgVec)
    (res : Except String (ProgVec × CrawlState)) : Prop :=
  match res with
  | .error _ => True
  | .ok (p', _) => vecLe p p'

/-- Same property for the loop-level accumulator. -/
def foldMono (q : Progress × Progress × Progress)
    (res : Except String ((Progress × Progress × Progress) × CrawlState)) :
    Prop :=
  match res with
  | .error _ => True
  | .ok (q', _) => tripleLe q q'

/-! ## Concrete fixtures used by counterexamples and witnesses -/

/-- A network whose root page lists one category `A` linking to
`https://x.com/a`, and whose every other page lists one category `B`
linking to `https://x.com/b`. -/
def c1pages : String → RawResp := fun u =>
  if u = "https://x.com/root"
  then ⟨some [⟨some [⟨"A", "<a href=\"https://x.com/a\">A</a>"⟩]⟩]⟩
  else ⟨some [⟨some [⟨"B", "<a href=\"https://x.com/b\">B</a>"⟩]⟩]⟩

/-- A store that already contains the URL `https://x.com/a` discovered at
the root page of `c1pages`. -/
def c1db : CatDB := ⟨[⟨1, "A", "https://x.com/a", none⟩], 2⟩

/-- A network whose every response has a `data` array whose first element
lacks the `results` key. -/
def c7pages : String → RawResp := fun _ => ⟨some [⟨none⟩]⟩

/-- A network whose every response lacks the `data` key. -/
def noDataPages : String → RawResp := fun _ => ⟨none⟩

/-- Attempt outcomes: failures on attempts 0 and 1, success with body 5 on
attempt 2. -/
def twoFailOutcomes : Nat → Attempt := fun n => if n = 2 then .ok 5 else .exc

/-- Attempt outcomes: every attempt fails. -/
def allFailOutcomes : Nat → Attempt := fun _ => .exc

/-- A store holding one row with URL `u`, used to exercise the duplicate
branch of `save_category_to_db`. -/
def c8db : CatDB := ⟨[⟨1, "x", "u", none⟩], 2⟩

/-- A categories store holding one category (id 5, name `Cat`, URL `u`),
used for product-ingestion scenarios. -/
def c7catdb : CatDB := ⟨[⟨5, "Cat", "u", none⟩], 6⟩

/-! ## Theorems -/

/-- Unfolding of `crawlAux` at positive fuel: the loop is a fold of
`crawlStep`. -/
theorem crawlAux_succ (pages : String → RawResp) (base : String)
    (fuel : Nat) (url : String) (depth : Nat) (parent_id : Option Nat)
    (p : ProgVec) (st : CrawlState) :
    crawlAux pages base (fuel + 1) url depth parent_id p st =
      (if depth > 3 then .ok (p, st)
       else
        let st1 : CrawlState := ⟨st.db, st.fetched ++ [url]⟩
        match (pages url).data with
        | none => .ok (p, st1)
        | some [] => .ok (p, st1)
        | some (item :: _) =>
          match item.results with
          | none => .error "KeyError: results"
          | some results =>
            let q0 := (p.1.getD ⟨0, 0⟩, p.2.1.getD ⟨0, 0⟩, p.2.2.getD ⟨0, 0⟩)
            let q1 := bumpTotal depth results.length q0
            match results.foldl (crawlStep pages base fuel depth parent_id)
                (.ok (q1, st1)) with
            | .ok (q2, st2) => .ok ((some q2.1, some q2.2.1, some q2.2.2), st2)
            | .error e => .error e) := rfl

/-- C10: calling `fetch_page` with a `selectors` argument that is not a
list raises `ValueError` before any attempt: no request is issued and no
retry delay occurs, for every outcome function and retry ceiling. -/
theorem spec_C10 (outcomes : Nat → Attempt) (max_retries : Nat) :
    fetch_page .notAList outcomes max_retries =
      (.valueError "Selectors must be provided as a list.", ⟨0, []⟩) := rfl

/-- C4: with the default ceiling of 3 attempts, a fetch failing on
attempts 1 and 2 and succeeding on attempt 3 returns the successful body
with no error, after exactly 3 requests and fixed delays of 2 time-units
between consecutive attempts; a fetch failing on all 3 attempts raises the
terminal error naming the attempt count, likewise after 3 requests and
flat delays of 2 (no exponential backoff). -/
theorem spec_C4 (outcomes : Nat → Attempt) (body : Nat)
    (sels : List String) :
    (outcomes 0 = .exc → outcomes 1 = .exc → outcomes 2 = .ok body →
      fetch_page (.list sels) outcomes 3 = (.json body, ⟨3, [2, 2]⟩)) ∧
    (outcomes 0 = .exc → outcomes 1 = .exc → outcomes 2 = .exc →
      fetch_page (.list sels) outcomes 3 =
        (.fetchFail "Failed to fetch page after 3 attempts", ⟨3, [2, 2]⟩)) := by
  constructor
  · intro h0 h1 h2
    simp [fetch_page, fetchLoop, h0, h1, h2]
  · intro h0 h1 h2
    simp [fetch_page, fetchLoop, h0, h1, h2]
    rfl

/-- C4 witness: the retry scenarios at concrete outcome functions. -/
theorem spec_C4_witness :
    fetch_page (.list ["sel"]) twoFailOutcomes 3 = (.json 5, ⟨3, [2, 2]⟩) ∧
    fetch_page (.list ["sel"]) allFailOutcomes 3 =
      (.fetchFail "Failed to fetch page after 3 attempts", ⟨3, [2, 2]⟩) :=
  ⟨(spec_C4 twoFailOutcomes 5 ["sel"]).1 rfl rfl rfl,
   (spec_C4 allFailOutcomes 5 ["sel"]).2 rfl rfl rfl⟩

/-- C6: a crawl call with depth strictly greater than 3 is a no-op: it
performs no fetch (the fetch log is unchanged), persists nothing (the
store is unchanged), and returns the progress state unchanged. -/
theorem spec_C6 (pages : String → RawResp) (base url : String)
    (depth : Nat) (parent_id : Option Nat) (p : ProgVec) (st : CrawlState)
    (h : depth > 3) :
    scrape_category pages base url depth parent_id p st = .ok (p, st) := by
  unfold scrape_category
  cases hf : 5 - depth with
  | zero => rfl
  | succ f => rw [crawlAux_succ]; simp [h]

/-- C6 witness: a depth-4 call on a concrete network and store. -/
theorem spec_C6_witness :
    4 > 3 ∧
    scrape_category c1pages "https://x.com/" "https://x.com/root" 4 none
        (none, none, none) ⟨emptyCatDB, []⟩ =
      .ok ((none, none, none), ⟨emptyCatDB, []⟩) :=
  ⟨by decide,
   spec_C6 c1pages "https://x.com/" "https://x.com/root" 4 none
     (none, none, none) ⟨emptyCatDB, []⟩ (by decide)⟩

/-- C8: a category insert whose URL collides with a stored category's URL
is a no-op on the store and returns `None` instead of a new id; in
particular, immediately after any save of some URL, a second save with the
same URL (any name, any parent) returns `None` and leaves the store's
contents untouched. -/
theorem spec_C8 (db : CatDB) (name url : String) (parent : Option Nat)
    (name2 : String) (parent2 : Option Nat) :
    ((db.rows.any fun r => r.url = url) = true →
      save_category_to_db db name url parent = (none, db)) ∧
    save_category_to_db (save_category_to_db db name url parent).2 name2 url
        parent2 = (none, (save_category_to_db db name url parent).2) := by
  constructor
  · intro h
    simp [save_category_to_db, categoriesInsert, h]
  · by_cases h : (db.rows.any fun r => r.url = url) = true
    · simp [save_category_to_db, categoriesInsert, h]
    · have h2 : ((db.rows ++ [(⟨db.nextId, name, url, parent⟩ : CatRow)]).any
          fun r => r.url = url) = true := by
        simp [List.any_append]
      simp [save_category_to_db, categoriesInsert, h, h2]

/-- C8 witness: a duplicate insert on a concrete store is reported as
`None` and changes nothing. -/
theorem spec_C8_witness :
    (c8db.rows.any fun r => r.url = "u") = true ∧
    save_category_to_db c8db "y" "u" none = (none, c8db) :=
  ⟨by decide, (spec_C8 c8db "y" "u" none "z" none).1 (by decide)⟩

/-- C1 counterexample: the claim says that when persisting a discovered
category returns `None` (duplicate URL) the crawler still recurses into
that category's URL with a null parent reference. On this concrete input
the store already holds `https://x.com/a`, the root page's only fragment
links there, and `c1pages` would serve a further category `B` at
`https://x.com/a` — yet the crawl fetches only the root URL and leaves the
store unchanged (no row for `B`, with any parent), so no recursion into
the duplicate's URL happened. -/
theorem spec_C1_counterexample :
    save_category_to_db c1db "A" "https://x.com/a" none = (none, c1db) ∧
    scrape_category c1pages "https://x.com/" "https://x.com/root" 1 none
        (none, none, none) ⟨c1db, []⟩ =
      .ok ((some ⟨1, 1⟩, some ⟨0, 0⟩, some ⟨0, 0⟩),
        ⟨c1db, ["https://x.com/root"]⟩) :=
  ⟨rfl, rfl⟩

/-- C1 (amended): when persisting a discovered category returns `None`
because its URL already exists in the store, the crawler does NOT recurse
into that category's URL: the loop step only bumps the depth's `current`
counter and moves on, leaving the store and the fetch log untouched
(recursion happens only when the insert returns a fresh id, which is then
passed as the child's parent reference). -/
theorem spec_C1 (pages : String → RawResp) (base : String)
    (fuel depth : Nat) (parent_id : Option Nat) (r : Frag)
    (q : Progress × Progress × Progress) (stA : CrawlState)
    (category_url : String)
    (hurl : extract_url_from_anchor base r.html = some category_url)
    (hdup : (stA.db.rows.any fun row => row.url = category_url) = true) :
    crawlStep pages base fuel depth parent_id (.ok (q, stA)) r =
      .ok (bumpCurrent depth q, stA) := by
  simp [crawlStep, hurl, save_category_to_db, categoriesInsert, hdup]

/-- C1 witness: the duplicate loop step at a concrete fragment and store. -/
theorem spec_C1_witness :
    crawlStep c1pages "https://x.com/" 3 1 none
        (.ok ((⟨0, 1⟩, ⟨0, 0⟩, ⟨0, 0⟩), ⟨c1db, ["https://x.com/root"]⟩))
        ⟨"A", "<a href=\"https://x.com/a\">A</a>"⟩ =
      .ok (bumpCurrent 1 (⟨0, 1⟩, ⟨0, 0⟩, ⟨0, 0⟩),
        ⟨c1db, ["https://x.com/root"]⟩) :=
  spec_C1 c1pages "https://x.com/" 3 1 none
    ⟨"A", "<a href=\"https://x.com/a\">A</a>"⟩
    ((⟨0, 1⟩, ⟨0, 0⟩, ⟨0, 0⟩)) ⟨c1db, ["https://x.com/root"]⟩
    "https://x.com/a" rfl (by decide)

/-- C7 counterexample: the claim says a response missing the `results`
key is treated as "no results found" (early return, zero records,
progress unchanged, no raise). On this concrete response
`{data: [{}]}` — `data` present and non-empty, `results` missing — both
the crawl branch and the product-ingestion call abort with an uncaught
`KeyError` instead. -/
theorem spec_C7_counterexample :
    (c7pages "u").data = some [⟨none⟩] ∧
    scrape_category c7pages "b" "u" 1 none (none, none, none)
        ⟨emptyCatDB, []⟩ = .error "KeyError: results" ∧
    fetch_products_by_category c7catdb [] c7pages true 5 =
      .error "KeyError: results" :=
  ⟨rfl, rfl, rfl⟩

/-- C7 (amended): an extractor response missing the `data` key (or with an
empty `data` array) is treated as "no results found" rather than an
error: the crawl branch returns with the progress state unchanged (only
the fetch is logged) without raising, and the product-ingestion call
returns with zero records ingested. (A present `data` whose first element
lacks `results` raises instead — see the counterexample.) -/
theorem spec_C7 (pages : String → RawResp) (base url : String)
    (depth : Nat) (parent_id : Option Nat) (p : ProgVec) (st : CrawlState)
    (catDb : CatDB) (prods : List ProdRow) (confirm : Bool)
    (category_id : Nat) (name : String)
    (hresp : (pages url).data = none ∨ (pages url).data = some []) :
    (depth ≤ 3 →
      scrape_category pages base url depth parent_id p st =
        .ok (p, ⟨st.db, st.fetched ++ [url]⟩)) ∧
    (check_products_exist_by_category prods category_id = false →
      get_category_by_id catDb category_id = some (name, url) →
      fetch_products_by_category catDb prods pages confirm category_id =
        .ok prods) := by
  constructor
  · intro hd
    unfold scrape_category
    have hf : 5 - depth = (4 - depth) + 1 := by omega
    rw [hf, crawlAux_succ]
    have h3 : ¬ depth > 3 := by omega
    rcases hresp with h | h <;> simp [h3, h]
  · intro hex hget
    unfold fetch_products_by_category
    rcases hresp with h | h <;> simp [hex, hget, h]

/-- C7 witness: a missing-`data` response at depth 1 and at a concrete
category, with no pre-existing products. -/
theorem spec_C7_witness :
    ((noDataPages "u").data = none ∨ (noDataPages "u").data = some []) ∧
    scrape_category noDataPages "b" "u" 1 none (none, none, none)
        ⟨emptyCatDB, []⟩ = .ok ((none, none, none), ⟨emptyCatDB, ["u"]⟩) ∧
    fetch_products_by_category c7catdb [] noDataPages false 5 = .ok [] := by
  have h := spec_C7 noDataPages "b" "u" 1 none (none, none, none)
    ⟨emptyCatDB, []⟩ c7catdb [] false 5 "Cat" (Or.inl rfl)
  exact ⟨Or.inl rfl, h.1 (by decide), h.2 rfl rfl⟩

/-- C3: the classification of `process_products` is decided by three
mutually exclusive checks in order on the stripped fragment text:
non-empty without `stars` and without `$` is a title; otherwise containing
`stars` is a rating; otherwise containing `$` is a price; consequently a
fragment containing both `stars` and `$` is classified as rating only. -/
theorem spec_C3 (text : String) :
    (classify (pyStrip text) = .title ↔
      ((pyStrip text).isEmpty = false ∧ hasStars (pyStrip text) = false ∧
        hasDollar (pyStrip text) = false)) ∧
    (classify (pyStrip text) = .rating ↔ hasStars (pyStrip text) = true) ∧
    (classify (pyStrip text) = .price ↔
      (hasStars (pyStrip text) = false ∧ hasDollar (pyStrip text) = true)) ∧
    (hasStars (pyStrip text) = true → hasDollar (pyStrip text) = true →
      classify (pyStrip text) = .rating) := by
  cases hE : (pyStrip text).isEmpty <;> cases hS : hasStars (pyStrip text) <;>
    cases hD : hasDollar (pyStrip text) <;> simp [classify, hE, hS, hD]

/-- C3 witness: a fragment containing both `stars` and `$` is classified
as rating. -/
theorem spec_C3_witness :
    hasStars (pyStrip " 4.5 stars $9.99 ") = true ∧
    hasDollar (pyStrip " 4.5 stars $9.99 ") = true ∧
    classify (pyStrip " 4.5 stars $9.99 ") = .rating :=
  ⟨rfl, rfl, (spec_C3 " 4.5 stars $9.99 ").2.2.2 rfl rfl⟩

/-- Unfolding of the spec model on the empty fragment list. -/
theorem segSpec_nil (cid : Nat) : segSpec cid [] = [] := by
  rw [segSpec.eq_def]

/-- Unfolding of the spec model on a fragment followed by the rest. -/
theorem segSpec_cons (cid : Nat) (r : Frag) (rs : List Frag) :
    segSpec cid (r :: rs) =
      if fragClass r = .title then
        ⟨pyStrip r.text,
         (rs.takeWhile (fun x => !isTitleFrag x)).foldl (updTag .rating) none,
         (rs.takeWhile (fun x => !isTitleFrag x)).foldl (updTag .price) none,
         cid⟩ ::
          segSpec cid (rs.dropWhile (fun x => !isTitleFrag x))
      else segSpec cid rs := by
  rw [segSpec.eq_def]

/-- With no open record, the values of the `rating` / `price` locals are
irrelevant to what `process_products`'s loop emits. -/
theorem processAux_none_irrel (cid : Nat) :
    ∀ (rs : List Frag) (rat pri rat2 pri2 : Option String),
      processAux cid none rat pri rs = processAux cid none rat2 pri2 rs := by
  intro rs
  induction rs with
  | nil => intro _ _ _ _; rfl
  | cons r rs ih =>
    intro rat pri rat2 pri2
    cases h : classify (pyStrip r.text) <;> simp [processAux, h]
    · exact ih _ _ _ _
    · exact ih _ _ _ _
    · exact ih _ _ _ _

/-- With an open record `(t, rat, pri)`, the loop of `process_products`
emits that record carrying the last rating / price fragment of the span
up to the next title, then continues as the spec model on the rest. -/
theorem processAux_open (cid : Nat) :
    ∀ (rs : List Frag) (t : String) (rat pri : Option String),
      processAux cid (some t) rat pri rs =
        ⟨t, (rs.takeWhile (fun x => !isTitleFrag x)).foldl (updTag .rating) rat,
            (rs.takeWhile (fun x => !isTitleFrag x)).foldl (updTag .price) pri,
            cid⟩ ::
          segSpec cid (rs.dropWhile (fun x => !isTitleFrag x)) := by
  intro rs
  induction rs with
  | nil => intro t rat pri; simp [processAux, segSpec_nil]
  | cons r rs ih =>
    intro t rat pri
    cases h : classify (pyStrip r.text) with
    | title =>
      have hf : fragClass r = FragClass.title := h
      have hb : isTitleFrag r = true := by simp [isTitleFrag, hf]
      simp [processAux, h, ih, hb, segSpec_cons, hf]
    | rating =>
      have hf : fragClass r = FragClass.rating := h
      have hb : isTitleFrag r = false := by simp [isTitleFrag, hf]
      simp [processAux, h, ih, hb, updTag, hf]
    | price =>
      have hf : fragClass r = FragClass.price := h
      have hb : isTitleFrag r = false := by simp [isTitleFrag, hf]
      simp [processAux, h, ih, hb, updTag, hf]
    | skip =>
      have hf : fragClass r = FragClass.skip := h
      have hb : isTitleFrag r = false := by simp [isTitleFrag, hf]
      simp [processAux, h, ih, hb, updTag, hf]

/-- The titles of the emitted records are the open title (if any) followed
by the stripped texts of the title-classified fragments, in input order. -/
theorem processAux_titles (cid : Nat) :
    ∀ (rs : List Frag) (tit rat pri : Option String),
      (processAux cid tit rat pri rs).map ProdRow.title =
        tit.toList ++ rs.filterMap fragTitle := by
  intro rs
  induction rs with
  | nil => intro tit rat pri; cases tit <;> simp [processAux]
  | cons r rs ih =>
    intro tit rat pri
    cases h : classify (pyStrip r.text) with
    | title =>
      have hf : fragClass r = FragClass.title := h
      cases tit <;>
        simp [processAux, h, ih, fragTitle, hf]
    | rating =>
      have hf : fragClass r = FragClass.rating := h
      simp [processAux, h, ih, fragTitle, hf]
    | price =>
      have hf : fragClass r = FragClass.price := h
      simp [processAux, h, ih, fragTitle, hf]
    | skip =>
      have hf : fragClass r = FragClass.skip := h
      simp [processAux, h, ih, fragTitle, hf]

/-- C2: for every finite fragment sequence, `process_products` emits
exactly one record per title-classified fragment, in input order (the
title projection of the output is the list of title-classified fragments);
and the output equals the spec model `segSpec`: each record carries the
rating / price fragments that appeared between its title and the next
title (or end of input), `none` when no such fragment appeared; fragments
before the first title produce no record, and the final open record is
emitted at end of input. -/
theorem spec_C2 (results : List Frag) (categoryId : Nat) :
    process_products results categoryId = segSpec categoryId results ∧
    (process_products results categoryId).map ProdRow.title =
      results.filterMap fragTitle := by
  refine ⟨?_, processAux_titles categoryId results none none none⟩
  induction results with
  | nil => simp [process_products, processAux, segSpec_nil]
  | cons r rs ih =>
    cases h : classify (pyStrip r.text) with
    | title =>
      have hf : fragClass r = FragClass.title := h
      show processAux categoryId none none none (r :: rs) = _
      rw [segSpec_cons]
      simp only [hf, if_pos, processAux, h, List.nil_append]
      exact processAux_open categoryId rs (pyStrip r.text) none none
    | rating =>
      have hf : fragClass r = FragClass.rating := h
      show processAux categoryId none none none (r :: rs) = _
      rw [segSpec_cons]
      simp only [hf, processAux, h]
      rw [processAux_none_irrel categoryId rs (some (pyStrip r.text)) none
        none none]
      simpa using ih
    | price =>
      have hf : fragClass r = FragClass.price := h
      show processAux categoryId none none none (r :: rs) = _
      rw [segSpec_cons]
      simp only [hf, processAux, h]
      rw [processAux_none_irrel categoryId rs none (some (pyStrip r.text))
        none none]
      simpa using ih
    | skip =>
      have hf : fragClass r = FragClass.skip := h
      show processAux categoryId none none none (r :: rs) = _
      rw [segSpec_cons]
      simp only [hf, processAux, h]
      simpa using ih

/-- Scanning past characters where the pattern does not match leaves the
search result unchanged. -/
theorem searchHref_append (rest : List Char) :
    ∀ pre : List Char, scanNoMatch pre rest = true →
      searchHref (pre ++ rest) = searchHref rest := by
  intro pre
  induction pre with
  | nil => intro _; rfl
  | cons c cs ih =>
    intro h
    simp only [scanNoMatch, Bool.and_eq_true, Bool.not_eq_true'] at h
    obtain ⟨h1, h2⟩ := h
    rw [List.cons_append] at h1 ⊢
    simp only [searchHref, matchHrefAt, h1, Bool.false_eq_true, if_false]
    exact ih h2

/-- If there is no occurrence of `href="` at all, the search finds
nothing. -/
theorem searchHref_none :
    ∀ cs : List Char, listContainsSub "href=\"".data cs = false →
      searchHref cs = none := by
  intro cs
  induction cs with
  | nil => intro _; rfl
  | cons c cs ih =>
    intro h
    simp only [listContainsSub, Bool.or_eq_false_iff] at h
    obtain ⟨h1, h2⟩ := h
    simp only [searchHref, matchHrefAt, h1, Bool.false_eq_true, if_false]
    exact ih h2

/-- A quote-free capture followed by a closing quote is taken whole. -/
theorem takeWhile_quote (post : List Char) :
    ∀ v : List Char, '"' ∉ v →
      (v ++ '"' :: post).takeWhile (fun c => c ≠ '"') = v := by
  intro v
  induction v with
  | nil => intro _; simp
  | cons a v ih =>
    intro h
    have ha : a ≠ '"' := fun hc => h (hc ▸ List.mem_cons_self a v)
    have hv : '"' ∉ v := fun hc => h (List.mem_cons_of_mem a hc)
    simp [List.takeWhile_cons, ha]
    simpa using ih hv

/-- The pattern matches exactly at an occurrence
`href="<capture>"<rest>` with a non-empty quote-free capture. -/
theorem matchHrefAt_exact (v post : List Char) (hv : v ≠ [])
    (hq : '"' ∉ v) :
    matchHrefAt ("href=\"".data ++ (v ++ '"' :: post)) = some ⟨v⟩ := by
  have hpre : "href=\"".data.isPrefixOf
      ("href=\"".data ++ (v ++ '"' :: post)) = true := by
    rw [ List.isPrefixOf_iff_prefix]
    exact List.prefix_append _ _
  unfold matchHrefAt
  rw [hpre]
  simp only [if_true]
  rw [show (6 : Nat) = "href=\"".data.length from rfl, List.drop_left]
  rw [takeWhile_quote post v hq]
  have hlen : v.length ≥ 1 := by
    cases v with
    | nil => exact absurd rfl hv
    | cons a v => simp
  have hlt : v.length < (v ++ '"' :: post).length := by
    simp [List.length_append]
  simp [hlen, hlt]

/-- C5: the anchor URL resolver returns the first `href` value in the
fragment — as-is when it begins with the scheme prefix `http`, otherwise
prefixed (by string concatenation) with the configured base URL — and
`none` when the fragment contains no `href` occurrence; in particular on
`<span>no link</span>` it returns `none`, a relative `/dp/123` is
prefixed with the base URL, and an absolute `https://other.com/y` is
returned unchanged. -/
theorem spec_C5 (base : String) :
    extract_url_from_anchor base "<span>no link</span>" = none ∧
    extract_url_from_anchor base "<a href=\"/dp/123\">x</a>" =
      some (base ++ "/dp/123") ∧
    extract_url_from_anchor base "<a href=\"https://other.com/y\">x</a>" =
      some "https://other.com/y" ∧
    (∀ html : String, listContainsSub "href=\"".data html.data = false →
      extract_url_from_anchor base html = none) ∧
    (∀ pre v post : List Char,
      scanNoMatch pre ("href=\"".data ++ (v ++ '"' :: post)) = true →
      v ≠ [] → '"' ∉ v →
      extract_url_from_anchor base ⟨pre ++ ("href=\"".data ++ (v ++ '"' :: post))⟩ =
        some (if pyStartswith ⟨v⟩ "http" then ⟨v⟩ else base ++ ⟨v⟩)) := by
  refine ⟨rfl, rfl, rfl, ?_, ?_⟩
  · intro html h
    unfold extract_url_from_anchor
    rw [searchHref_none html.data h]
  · intro pre v post hscan hv hq
    unfold extract_url_from_anchor
    have hfound : searchHref (pre ++ ("href=\"".data ++ (v ++ '"' :: post))) =
        some ⟨v⟩ := by
      rw [searchHref_append _ pre hscan]
      have hm := matchHrefAt_exact v post hv hq
      rw [show "href=\"".data ++ (v ++ '"' :: post) =
        'h' :: ('r' :: ('e' :: ('f' :: ('=' :: ('"' :: (v ++ '"' :: post))))))
        from rfl] at hm ⊢
      simp only [searchHref, hm]
    rw [hfound]

/-- C5 witness: the hypothesis-bearing parts of `spec_C5` at concrete
fragments. -/
theorem spec_C5_witness :
    listContainsSub "href=\"".data "<span>no link</span>".data = false ∧
    extract_url_from_anchor "https://example.com/" "<span>no link</span>" =
      none ∧
    scanNoMatch "<a ".data
      ("href=\"".data ++ ("/dp/123".data ++ '"' :: ">x</a>".data)) = true ∧
    extract_url_from_anchor "https://example.com/"
        ⟨"<a ".data ++ ("href=\"".data ++ ("/dp/123".data ++ '"' :: ">x</a>".data))⟩ =
      some (if pyStartswith ⟨"/dp/123".data⟩ "http" then ⟨"/dp/123".data⟩
            else "https://example.com/" ++ ⟨"/dp/123".data⟩) := by
  have h := spec_C5 "https://example.com/"
  exact ⟨rfl, h.2.2.2.1 "<span>no link</span>" rfl, rfl,
    h.2.2.2.2 "<a ".data "/dp/123".data ">x</a>".data rfl (by decide)
      (by decide)⟩

/-- Reflexivity of the progress order. -/
theorem progLe_refl (p : Progress) : progLe p p :=
  ⟨Nat.le_refl _, Nat.le_refl _⟩

/-- Transitivity of the progress order. -/
theorem progLe_trans {a b c : Progress} (h1 : progLe a b) (h2 : progLe b c) :
    progLe a c :=
  ⟨Nat.le_trans h1.1 h2.1, Nat.le_trans h1.2 h2.2⟩

/-- Reflexivity of the triple order. -/
theorem tripleLe_refl (q : Progress × Progress × Progress) : tripleLe q q :=
  ⟨progLe_refl _, progLe_refl _, progLe_refl _⟩

/-- Transitivity of the triple order. -/
theorem tripleLe_trans {a b c : Progress × Progress × Progress}
    (h1 : tripleLe a b) (h2 : tripleLe b c) : tripleLe a c :=
  ⟨progLe_trans h1.1 h2.1, progLe_trans h1.2.1 h2.2.1,
   progLe_trans h1.2.2 h2.2.2⟩

/-- Adding to a `total` counter never decreases the triple. -/
theorem bumpTotal_le (depth n : Nat) (q : Progress × Progress × Progress) :
    tripleLe q (bumpTotal depth n q) := by
  by_cases h1 : depth = 1 <;> by_cases h2 : depth = 2 <;>
    by_cases h3 : depth = 3 <;>
    simp [bumpTotal, h1, h2, h3, tripleLe, progLe] <;> omega

/-- Adding to a `current` counter never decreases the triple. -/
theorem bumpCurrent_le (depth : Nat) (q : Progress × Progress × Progress) :
    tripleLe q (bumpCurrent depth q) := by
  by_cases h1 : depth = 1 <;> by_cases h2 : depth = 2 <;>
    by_cases h3 : depth = 3 <;>
    simp [bumpCurrent, h1, h2, h3, tripleLe, progLe] <;> omega

/-- An initialized dict is bounded by whatever bounds its `getD` form. -/
theorem progOptLe_of_getD (o : Option Progress) (b : Progress)
    (h : progLe (o.getD ⟨0, 0⟩) b) : progOptLe o (some b) := by
  cases o with
  | none => trivial
  | some x => exact h

/-- What an `ok` child result guarantees for the `getD` read-back. -/
theorem progOptLe_getD {x : Progress} {o : Option Progress}
    (h : progOptLe (some x) o) : progLe x (o.getD x) := by
  cases o with
  | none => exact h.elim
  | some y => exact h

/-- Reflexivity of the optional-progress vector order. -/
theorem vecLe_refl (p : ProgVec) : vecLe p p := by
  refine ⟨?_, ?_, ?_⟩ <;>
    first
      | (cases p.1 with
          | none => trivial
          | some x => exact progLe_refl x)
      | (cases p.2.1 with
          | none => trivial
          | some x => exact progLe_refl x)
      | (cases p.2.2 with
          | none => trivial
          | some x => exact progLe_refl x)

/-- A triple bound below an accumulator transfers along `foldMono`. -/
theorem foldMono_trans {q q1 : Progress × Progress × Progress}
    {res : Except String ((Progress × Progress × Progress) × CrawlState)}
    (h : tripleLe q q1) (hm : foldMono q1 res) : foldMono q res := by
  cases res with
  | error e => trivial
  | ok pair =>
    obtain ⟨q2, st2⟩ := pair
    exact tripleLe_trans h hm

/-- Folding the loop step over an errored accumulator stays errored. -/
theorem foldl_crawlStep_error (pages : String → RawResp) (base : String)
    (fuel depth : Nat) (parent_id : Option Nat) (e : String) :
    ∀ results : List Frag,
      results.foldl (crawlStep pages base fuel depth parent_id) (.error e) =
        .error e := by
  intro results
  induction results with
  | nil => rfl
  | cons r rest ih => rw [List.foldl_cons]; exact ih

/-- One loop step never decreases the progress triple (assuming the child
crawl at the step's fuel never does). -/
theorem crawlStep_mono (pages : String → RawResp) (base : String)
    (fuel depth : Nat) (parent_id : Option Nat)
    (q : Progress × Progress × Progress) (st : CrawlState) (r : Frag)
    (hAux : ∀ url depth2 parent2 p stc,
      crawlMono p (crawlAux pages base fuel url depth2 parent2 p stc)) :
    foldMono q (crawlStep pages base fuel depth parent_id (.ok (q, st)) r) := by
  unfold crawlStep
  cases hu : extract_url_from_anchor base r.html with
  | none => exact tripleLe_refl q
  | some category_url =>
    dsimp only
    cases hs : (save_category_to_db st.db r.text category_url parent_id).1 with
    | none => exact bumpCurrent_le depth q
    | some current_category_id =>
      have h := hAux category_url (depth + 1) (some current_category_id)
        (some (bumpCurrent depth q).1, some (bumpCurrent depth q).2.1,
          some (bumpCurrent depth q).2.2)
        ⟨(save_category_to_db st.db r.text category_url parent_id).2,
          st.fetched⟩
      cases hc : crawlAux pages base fuel category_url (depth + 1)
          (some current_category_id)
          (some (bumpCurrent depth q).1, some (bumpCurrent depth q).2.1,
            some (bumpCurrent depth q).2.2)
          ⟨(save_category_to_db st.db r.text category_url parent_id).2,
            st.fetched⟩ with
      | error e =>
        dsimp only
        rw [hc]
        exact trivial
      | ok pair =>
        obtain ⟨p2, st2⟩ := pair
        rw [hc] at h
        dsimp only
        rw [hc]
        refine tripleLe_trans (bumpCurrent_le depth q) ⟨?_, ?_, ?_⟩
        · exact progOptLe_getD h.1
        · exact progOptLe_getD h.2.1
        · exact progOptLe_getD h.2.2

/-- The whole loop never decreases the progress triple (assuming the child
crawl at the loop's fuel never does). -/
theorem foldl_crawlStep_mono (pages : String → RawResp) (base : String)
    (fuel depth : Nat) (parent_id : Option Nat)
    (hAux : ∀ url depth2 parent2 p stc,
      crawlMono p (crawlAux pages base fuel url depth2 parent2 p stc)) :
    ∀ (results : List Frag) (q : Progress × Progress × Progress)
      (st : CrawlState),
      foldMono q (results.foldl (crawlStep pages base fuel depth parent_id)
        (.ok (q, st))) := by
  intro results
  induction results with
  | nil => intro q st; exact tripleLe_refl q
  | cons r rest ih =>
    intro q st
    rw [List.foldl_cons]
    have hstep := crawlStep_mono pages base fuel depth parent_id q st r hAux
    cases hc : crawlStep pages base fuel depth parent_id (.ok (q, st)) r with
    | error e => rw [foldl_crawlStep_error]; trivial
    | ok pair =>
      obtain ⟨q1, st1⟩ := pair
      rw [hc] at hstep
      exact foldMono_trans hstep (ih q1 st1)

/-- At every fuel, a crawl never decreases the progress counters it was
given. -/
theorem crawlAux_mono :
    ∀ (fuel : Nat) (pages : String → RawResp) (base url : String)
      (depth : Nat) (parent_id : Option Nat) (p : ProgVec)
      (st : CrawlState),
      crawlMono p (crawlAux pages base fuel url depth parent_id p st) := by
  intro fuel
  induction fuel with
  | zero => intro pages base url depth parent_id p st; exact vecLe_refl p
  | succ f ih =>
    intro pages base url depth parent_id p st
    rw [crawlAux_succ]
    by_cases hd : depth > 3
    · simp only [hd, if_true]
      exact vecLe_refl p
    · simp only [hd, if_false]
      split
      next => exact vecLe_refl p
      next => exact vecLe_refl p
      next item tail =>
        split
        next => exact trivial
        next results hres =>
          split
          next q2 st2 hfd =>
            have hfold := foldl_crawlStep_mono pages base f depth parent_id
              (fun url2 depth2 parent2 p2 stc2 =>
                ih pages base url2 depth2 parent2 p2 stc2)
              results
              (bumpTotal depth results.length
                (p.1.getD ⟨0, 0⟩, p.2.1.getD ⟨0, 0⟩, p.2.2.getD ⟨0, 0⟩))
              ⟨st.db, st.fetched ++ [url]⟩
            rw [hfd] at hfold
            have hbump := bumpTotal_le depth results.length
              (p.1.getD ⟨0, 0⟩, p.2.1.getD ⟨0, 0⟩, p.2.2.getD ⟨0, 0⟩)
            refine ⟨?_, ?_, ?_⟩
            · exact progOptLe_of_getD _ _ (progLe_trans hbump.1 hfold.1)
            · exact progOptLe_of_getD _ _ (progLe_trans hbump.2.1 hfold.2.1)
            · exact progOptLe_of_getD _ _ (progLe_trans hbump.2.2 hfold.2.2)
          next e hfd => exact trivial

/-- C9: throughout a crawl, the per-depth progress counters (`current` and
`total` for depths 1, 2 and 3) are cumulative and monotonically
non-decreasing: the progress state any crawl call returns is pointwise at
least the progress state it was given (and an initialized dict is never
replaced by an uninitialized one, i.e. counters are never reset), and
every sibling-loop step likewise only grows the accumulated counters
(counters are not reset per sibling). -/
theorem spec_C9 (pages : String → RawResp) (base url : String)
    (depth : Nat) (parent_id : Option Nat) (p : ProgVec) (st : CrawlState) :
    crawlMono p (scrape_category pages base url depth parent_id p st) ∧
    ∀ (fuel : Nat) (results : List Frag)
      (q : Progress × Progress × Progress) (st2 : CrawlState),
      foldMono q (results.foldl (crawlStep pages base fuel depth parent_id)
        (.ok (q, st2))) :=
  ⟨crawlAux_mono (5 - depth) pages base url depth parent_id p st,
   fun fuel results q st2 =>
     foldl_crawlStep_mono pages base fuel depth parent_id
       (fun url2 depth2 parent2 p2 stc2 =>
         crawlAux_mono fuel pages base url2 depth2 parent2 p2 stc2)
       results q st2⟩

example : process_products
    [⟨"Widget A", ""⟩, ⟨"4.5 stars", ""⟩, ⟨"$9.99", ""⟩, ⟨"Widget B", ""⟩,
     ⟨"$4.50", ""⟩] 7 =
    [⟨"Widget A", some "4.5 stars", some "$9.99", 7⟩,
     ⟨"Widget B", none, some "$4.50", 7⟩] := by decide

example : process_products [⟨"4 stars", ""⟩, ⟨"$1.00", ""⟩] 7 = [] := by
  decide

example : extract_url_from_anchor "https://example.com/"
    "<a href=\"/dp/123\">x</a>" = some "https://example.com//dp/123" := by
  decide

example : extract_url_from_anchor "https://example.com/"
    "<a href=\"https://other.com/y\">x</a>" = some "https://other.com/y" := by
  decide

example : extract_url_from_anchor "https://example.com/"
    "<span>no link</span>" = none := by decide
